import Mathlib

/-
Verification of the OpenMetadata UI fragment: the TestSummary trend chart
(chart-point derivation, incident overlay builder, reference-region renderer,
result fetch) and the DataModelSummary panel (detail-retention effect).

Modelling conventions for the JavaScript/TypeScript source:
  * JS numbers are modelled as exact rationals.  In the chart-point layer
    finite values are rationals and NaN is the `none` case of `Option ℚ`;
    the value pipeline is additionally modelled in full by `JSNum` /
    `chartValueFull`, which carries NaN and the two infinities (the
    Infinity literals and double overflow).  Double-precision round-off of
    finite values remains outside the model.
  * A TS optional field (`x?: T`) is modelled as `Option T`; `none` stands
    for the key being absent / the value `undefined`.
  * A JS object built by literal-and-spread syntax is modelled as an
    association list `List (κ × JSValue)` built with `setKey`, which has
    JS semantics: writing an existing key updates it in place, writing a
    fresh key appends it.
-/

namespace OMSpec

/-! ## JS numeric primitives -/

/-- Math.round: round half toward positive infinity. -/
def jsRound (q : ℚ) : ℤ := ⌊q + 1/2⌋

/-- lodash round(x, 2) on a finite number: shift by two decimal digits,
Math.round, shift back. -/
def round2 (q : ℚ) : ℚ := (jsRound (q * 100) : ℚ) / 100

def digitVal (c : Char) : ℕ := c.toNat - '0'.toNat

def natOfDigits (l : List Char) : ℕ := l.foldl (fun a c => a * 10 + digitVal c) 0

def hexDigitVal (c : Char) : ℕ :=
  if c.isDigit then digitVal c
  else if 'a' ≤ c ∧ c ≤ 'f' then c.toNat - 'a'.toNat + 10
  else c.toNat - 'A'.toNat + 10

def isHexDigitChar (c : Char) : Bool :=
  c.isDigit || ('a' ≤ c && c ≤ 'f') || ('A' ≤ c && c ≤ 'F')

def natOfHexDigits (l : List Char) : ℕ := l.foldl (fun a c => a * 16 + hexDigitVal c) 0

/-- Sign prefix of a JS numeric literal: returns the sign and the rest. -/
def parseSign : List Char → ℤ × List Char
  | '+' :: r => (1, r)
  | '-' :: r => (-1, r)
  | cs => (1, cs)

/-- The decimal-literal branch of JS parseFloat over exact rationals: skip
leading whitespace, optional sign, decimal digits, optional fraction,
optional exponent; NaN (`none`) when no digit is consumed.  The full
parseFloat, which also accepts the Infinity literals and overflows huge
values to the infinities, is parseFloatFull below. -/
def parseFloatJS (s : String) : Option ℚ :=
  let cs := s.data.dropWhile Char.isWhitespace
  let sg := (parseSign cs).1
  let cs1 := (parseSign cs).2
  let ip := (cs1.span Char.isDigit).1
  let cs2 := (cs1.span Char.isDigit).2
  let fp :=
    match cs2 with
    | '.' :: r => (r.span Char.isDigit).1
    | _ => []
  let cs3 :=
    match cs2 with
    | '.' :: r => (r.span Char.isDigit).2
    | _ => cs2
  if ip.isEmpty ∧ fp.isEmpty then none
  else
    let mant : ℚ := (natOfDigits ip : ℚ) + (natOfDigits fp : ℚ) / (10 : ℚ) ^ fp.length
    let ex : ℤ :=
      match cs3 with
      | c :: r =>
        if c = 'e' ∨ c = 'E' then
          let es := (parseSign r).1
          let ed := ((parseSign r).2.span Char.isDigit).1
          if ed.isEmpty then 0 else es * (natOfDigits ed : ℤ)
        else 0
      | [] => 0
    let scaled : ℚ :=
      if 0 ≤ ex then (sg : ℚ) * mant * (10 : ℚ) ^ ex.toNat
      else (sg : ℚ) * mant / (10 : ℚ) ^ (-ex).toNat
    some scaled

/-- JS parseInt with no radix argument: skip leading whitespace, optional
sign, a 0x/0X prefix selects hexadecimal, otherwise the longest decimal
digit prefix; NaN (`none`) when no digit is consumed. -/
def parseIntJS (s : String) : Option ℤ :=
  let cs := s.data.dropWhile Char.isWhitespace
  let sg := (parseSign cs).1
  let cs1 := (parseSign cs).2
  match cs1 with
  | '0' :: c :: r =>
    if c = 'x' ∨ c = 'X' then
      let hd := (r.span isHexDigitChar).1
      if hd.isEmpty then none else some (sg * (natOfHexDigits hd : ℤ))
    else
      let ds := (cs1.span Char.isDigit).1
      if ds.isEmpty then none else some (sg * (natOfDigits ds : ℤ))
  | _ =>
    let ds := (cs1.span Char.isDigit).1
    if ds.isEmpty then none else some (sg * (natOfDigits ds : ℤ))

/-! ## Full JS number model: NaN and the infinities -/

/-- A JS double as stored in a chart point's named metric: NaN, one of the
infinities, or a finite value (kept as an exact rational). -/
inductive JSNum where
  | nan
  | posInf
  | negInf
  | fin (q : ℚ)
deriving DecidableEq

def JSNum.isFiniteNum : JSNum → Bool
  | .fin _ => true
  | _ => false

/-- The smallest magnitude at which IEEE-754 round-to-nearest maps a
decimal literal to Infinity: the midpoint 2^1024 - 2^970 above the largest
double, written without subtraction as (2^54 - 1) * 2^970. -/
def overflowLimit : ℚ := ((2 ^ 54 - 1) * 2 ^ 970 : ℕ)

/-- JS parseFloat in full: after whitespace and sign, the literal Infinity
yields the signed infinity; otherwise the decimal-literal branch applies,
with values at or beyond the double-overflow midpoint mapped to the signed
infinity; NaN when no literal is consumed. -/
def parseFloatFull (s : String) : JSNum :=
  let cs := s.data.dropWhile Char.isWhitespace
  let sg := (parseSign cs).1
  let cs1 := (parseSign cs).2
  if cs1.take 8 = "Infinity".data then
    if sg = -1 then .negInf else .posInf
  else
    match parseFloatJS s with
    | none => .nan
    | some q =>
      if overflowLimit ≤ q then .posInf
      else if q ≤ -overflowLimit then .negInf
      else .fin q

/-- lodash round(x, 2) on the full model: the decimal-shift path is guarded
by isFinite, so NaN and the infinities pass through Math.round unchanged,
and a finite value is rounded to two decimals. -/
def roundFull : JSNum → JSNum
  | .nan => .nan
  | .posInf => .posInf
  | .negInf => .negInf
  | .fin q => .fin (round2 q)

/-- JS x || 0: NaN, 0 (and -0, which the exact model does not distinguish)
are the falsy numbers and yield 0; every other value, the infinities
included, is kept. -/
def orZero : JSNum → JSNum
  | .nan => .fin 0
  | .fin q => if q = 0 then .fin 0 else .fin q
  | x => x

/-- JS number-to-string for a value n/100 (the result of a two-decimal
round): integer part, then the fraction with trailing zeros dropped. -/
def decStr2 (n : ℤ) : String :=
  let a := n.natAbs
  let sgn := if n < 0 then "-" else ""
  let ip := a / 100
  let fr := a % 100
  if fr = 0 then sgn ++ toString ip
  else if fr % 10 = 0 then sgn ++ toString ip ++ "." ++ toString (fr / 10)
  else sgn ++ toString ip ++ "." ++ (if fr < 10 then "0" ++ toString fr else toString fr)

/-- The template string round(p, 2) followed by a percent sign, as built for
passedRowsPercentage / failedRowsPercentage. -/
def pctString (p : ℚ) : String := decStr2 (jsRound (p * 100)) ++ "%"

/-! ## Data model (generated TS types, fields as used by the components) -/

inductive TestCaseStatus where
  | Success
  | Failed
  | Aborted
  | Queued
deriving DecidableEq

def TestCaseStatus.asString : TestCaseStatus → String
  | .Success => "Success"
  | .Failed => "Failed"
  | .Aborted => "Aborted"
  | .Queued => "Queued"

inductive ThreadTaskStatus where
  | Open
  | Closed
deriving DecidableEq

structure TaskDetails where
  testCaseResolutionStatusId : Option String
  status : Option ThreadTaskStatus
  closedAt : Option ℤ
deriving DecidableEq

structure Thread where
  id : Option String
  task : Option TaskDetails
deriving DecidableEq

structure TestResultValue where
  name : Option String
  value : Option String
deriving DecidableEq

structure TestCaseResult where
  timestamp : Option ℤ
  testCaseStatus : Option TestCaseStatus
  testResultValue : Option (List TestResultValue)
  passedRows : Option ℤ
  failedRows : Option ℤ
  passedRowsPercentage : Option ℚ
  failedRowsPercentage : Option ℚ
  incidentId : Option String
deriving DecidableEq

structure TestCaseParameterValue where
  name : Option String
  value : Option String
deriving DecidableEq

/-- The TestCase entity (the `data` prop of TestSummary), with the fields
this component reads. -/
structure TestCase where
  name : Option String
  fullyQualifiedName : Option String
  parameterValues : Option (List TestCaseParameterValue)
  description : Option String
deriving DecidableEq

/-! ## JS object values and association-list objects -/

inductive JSValue where
  | num (q : ℚ)
  | str (s : String)
  | thread (t : Thread)
  | undefVal
deriving DecidableEq

def jsOfOptInt : Option ℤ → JSValue
  | none => .undefVal
  | some n => .num (n : ℚ)

def jsOfOptStr : Option String → JSValue
  | none => .undefVal
  | some s => .str s

def jsOfOptStatus : Option TestCaseStatus → JSValue
  | none => .undefVal
  | some st => .str st.asString

def jsOfOptThread : Option Thread → JSValue
  | none => .undefVal
  | some t => .thread t

/-- JS object write: an existing key is updated in place, a fresh key is
appended (JS property-insertion order). -/
def setKey {κ ν : Type} [DecidableEq κ] (o : List (κ × ν)) (k : κ) (v : ν) :
    List (κ × ν) :=
  if o.any (fun kv => kv.1 = k) then
    o.map (fun kv => if kv.1 = k then (k, v) else kv)
  else o ++ [(k, v)]

/-- JS property read: `some` the stored value, `none` when the key is absent
(a JS read of an absent key yields undefined). -/
def getKey {κ ν : Type} [DecidableEq κ] (o : List (κ × ν)) (k : κ) : Option ν :=
  (o.find? (fun kv => decide (kv.1 = k))).map Prod.snd

def hasKey {κ ν : Type} [DecidableEq κ] (o : List (κ × ν)) (k : κ) : Bool :=
  o.any (fun kv => kv.1 = k)

/-- Spread one object into another: successive key writes in order. -/
def spreadInto {κ ν : Type} [DecidableEq κ] (base : List (κ × ν)) (o : List (κ × ν)) :
    List (κ × ν) :=
  o.foldl (fun acc kv => setKey acc kv.1 kv.2) base

/-! ## chartData derivation (TestSummary.tsx, chartData useMemo) -/

/-- round(parseFloat(curr.value ?? ''), 2) || 0 : the || coerces falsy
results (NaN, 0) to 0.  `none` is NaN.  This is the finite restriction of
the stored value, as embedded in the chart-point objects; chartValueFull
below is the same pipeline over the full number model. -/
def chartValue (v : Option String) : ℚ :=
  match (parseFloatJS (v.getD "")).map round2 with
  | none => 0
  | some q => q

/-- round(parseFloat(curr.value ?? ''), 2) || 0 over the full number model:
NaN parses are coerced to 0, finite parses are stored as their two-decimal
round, and the infinities (truthy) pass through and are stored. -/
def chartValueFull (v : Option String) : JSNum :=
  orZero (roundFull (parseFloatFull (v.getD "")))

/-- The reduce over result.testResultValue building the named-value object:
each step spreads the accumulator and writes one key, so the whole reduce is
the in-order key-write fold of the (key, value) pairs of the entries. -/
def valuesObj (r : TestCaseResult) : List (String × JSValue) :=
  spreadInto []
    ((r.testResultValue.getD []).map
      (fun curr => (curr.name.getD "value", JSValue.num (chartValue curr.value))))

/-- The four-key metric object (values may be undefined before omitBy). -/
def metricObj (r : TestCaseResult) : List (String × JSValue) :=
  [("passedRows", jsOfOptInt r.passedRows),
   ("failedRows", jsOfOptInt r.failedRows),
   ("passedRowsPercentage",
     match r.passedRowsPercentage with
     | none => .undefVal
     | some p => .str (pctString p)),
   ("failedRowsPercentage",
     match r.failedRowsPercentage with
     | none => .undefVal
     | some p => .str (pctString p))]

/-- lodash omitBy(o, isUndefined). -/
def omitUndefVals (o : List (String × JSValue)) : List (String × JSValue) :=
  o.filter (fun kv => kv.2 ≠ JSValue.undefVal)

def threadResId (t : Thread) : Option String :=
  t.task.bind (fun td => td.testCaseResolutionStatusId)

/-- One chart point: the object literal
name, status, ...values, ...omitBy(metric, isUndefined), incidentId, task. -/
def mkChartPoint (entityThread : List Thread) (r : TestCaseResult) :
    List (String × JSValue) :=
  let base : List (String × JSValue) :=
    [("name", jsOfOptInt r.timestamp), ("status", jsOfOptStatus r.testCaseStatus)]
  let afterValues := spreadInto base (valuesObj r)
  let afterMetric := spreadInto afterValues (omitUndefVals (metricObj r))
  setKey
    (setKey afterMetric "incidentId" (jsOfOptStr r.incidentId))
    "task"
    (jsOfOptThread (entityThread.find? (fun t => threadResId t = r.incidentId)))

/-- chartData.data: one pushed point per result, then Array.reverse. -/
def chartDataData (entityThread : List Thread) (results : List TestCaseResult) :
    List (List (String × JSValue)) :=
  (results.map (mkChartPoint entityThread)).reverse

/-- The indexed map (info, i) => (label: info.name ?? '', color: COLORS[i]).
An index past the end of the palette yields undefined (`none`). -/
def seriesFrom (colors : List String) : ℕ → List TestResultValue → List (String × Option String)
  | _, [] => []
  | i, v :: tl => (v.name.getD "", colors.get? i) :: seriesFrom colors (i + 1) tl

/-- chartData.information: taken from results[0]?.testResultValue ?? [].
The palette COLORS lives outside this fragment, so it is passed as an
argument. -/
def chartSeries (colors : List String) (results : List TestCaseResult) :
    List (String × Option String) :=
  match results with
  | [] => []
  | r :: _ =>
    match r.testResultValue with
    | none => []
    | some tvs => seriesFrom colors 0 tvs

/-! ## Incident overlay builder (incidentData useMemo and its rendering) -/

/-- The incidentId property of a chart point (undefined when absent). -/
def pointIncidentVal (p : List (String × JSValue)) : JSValue :=
  (getKey p "incidentId").getD .undefVal

/-- The filter predicate
task.task?.testCaseResolutionStatusId === chart.incidentId
(strict equality; undefined === undefined holds). -/
def incidentMatch (t : Thread) (p : List (String × JSValue)) : Bool :=
  jsOfOptStr (threadResId t) = pointIncidentVal p

structure IncidentDatum where
  x1 : JSValue
  x2 : Option ℤ
  task : Thread
deriving DecidableEq

/-- One element of issueData: x1 is first(matching points)?.name, x2 is the
closing timestamp when the task status is Closed, undefined otherwise. -/
def mkIncidentDatum (pts : List (List (String × JSValue))) (t : Thread) :
    IncidentDatum :=
  let failedRows := pts.filter (incidentMatch t)
  let x2 : Option ℤ :=
    if t.task.bind (fun td => td.status) = some ThreadTaskStatus.Closed then
      t.task.bind (fun td => td.closedAt)
    else none
  { x1 :=
      match failedRows.head? with
      | none => .undefVal
      | some p => (getKey p "name").getD .undefVal
    x2 := x2
    task := t }

def incidentData (entityThread : List Thread) (results : List TestCaseResult) :
    List IncidentDatum :=
  entityThread.map (mkIncidentDatum (chartDataData entityThread results))

/-- A ReferenceArea element rendered for one incident datum. -/
structure Overlay where
  x1 : JSValue
  x2 : Option ℤ
  key : Option String
deriving DecidableEq

/-- The overlays the component renders, with getGraph's render guards:
while isGraphLoading a Loader replaces the chart, and with zero results the
placeholder replaces it, so in those states no chart and no overlay exists;
otherwise one ReferenceArea is emitted per incident datum, unconditionally
(the incidentData.length > 0 guard only suppresses the map on an empty
list, which renders nothing either way). -/
def graphOverlays (isGraphLoading : Bool) (entityThread : List Thread)
    (results : List TestCaseResult) : List Overlay :=
  if isGraphLoading then []
  else if results.length = 0 then []
  else (incidentData entityThread results).map (fun d => ⟨d.x1, d.x2, d.task.id⟩)

/-! ## Reference-region renderer (referenceArea) -/

/-- The rendered threshold marker: a ReferenceLine, or a ReferenceArea whose
y-record keys y1..yn are represented by their numeric index (the source key
string for index n is the letter y followed by the decimal of n). -/
inductive RefMarker where
  | line (label : Option String)
  | area (yValues : List (ℕ × Option ℤ))
deriving DecidableEq

/-- The reduce building the y-record: one fresh key per parameter, in input
order; the value is parseInt(curr.value || ''). -/
def refYFold : List TestCaseParameterValue → ℕ → List (ℕ × Option ℤ) →
    List (ℕ × Option ℤ)
  | [], _, acc => acc
  | c :: tl, i, acc => refYFold tl (i + 1) (setKey acc (i + 1) (parseIntJS (c.value.getD "")))

def refYValues (params : List TestCaseParameterValue) : List (ℕ × Option ℤ) :=
  refYFold params 0 []

/-- referenceArea(): params.length && params.length < 2 holds exactly for a
singleton list, which yields a ReferenceLine labelled by the parameter name;
every other length (including zero) yields a ReferenceArea carrying the
y-record. -/
def referenceArea (td : TestCase) : RefMarker :=
  let params := td.parameterValues.getD []
  match params with
  | [p0] => .line p0.name
  | _ => .area (refYValues params)

/-- The renderer contributes exactly one marker element to the chart. -/
def refMarkers (td : TestCase) : List RefMarker := [referenceArea td]

/-! ## Result fetch (fetchTestResults) -/

/-- lodash isEmpty on the entity object: no own enumerable key; optional
fields model a key that is present exactly when the field is some. -/
def TestCase.isEmptyObj (d : TestCase) : Bool :=
  d.name.isNone && d.fullyQualifiedName.isNone && d.parameterValues.isNone &&
    d.description.isNone

/-- pick(dateRangeObj, ['startTs', 'endTs']) keeps exactly these two keys,
so the range is modelled as that pair. -/
structure DateRangeObject where
  startTs : ℤ
  endTs : ℤ
deriving DecidableEq

structure FetchState where
  results : List TestCaseResult
  isLoading : Bool
  isGraphLoading : Bool
deriving DecidableEq

/-- Observable effects of one fetchTestResults call: REST invocations of
getListTestCaseResults (identifier and picked range) and error toasts. -/
structure FetchEffects where
  restCalls : List (String × DateRangeObject)
  errorToasts : ℕ
deriving DecidableEq

/-- fetchTestResults: isEmpty(data) returns early; otherwise the REST call
is made with data.fullyQualifiedName ?? '' and the picked range; on success
setResults(fetched), on failure showErrorToast; finally both loading flags
are cleared. -/
def fetchTestResults (d : TestCase) (outcome : Except Unit (List TestCaseResult))
    (range : DateRangeObject) (s : FetchState) : FetchState × FetchEffects :=
  if d.isEmptyObj then (s, ⟨[], 0⟩)
  else
    let s1 : FetchState := { s with isGraphLoading := true }
    let call : String × DateRangeObject := (d.fullyQualifiedName.getD "", range)
    match outcome with
    | .ok rs =>
      ({ s1 with results := rs, isLoading := false, isGraphLoading := false },
       ⟨[call], 0⟩)
    | .error _ =>
      ({ s1 with isLoading := false, isGraphLoading := false },
       ⟨[call], 1⟩)

/-! ## DataModelSummary (dataModelDetails state and skeleton) -/

/-- The DashboardDataModel entity, with representative optional fields;
lodash isEmpty sees the object as empty when no key is present. -/
structure DashboardDataModel where
  name : Option String
  displayName : Option String
  description : Option String
deriving DecidableEq

def DashboardDataModel.isEmptyObj (d : DashboardDataModel) : Bool :=
  d.name.isNone && d.displayName.isNone && d.description.isNone

/-- The update effect: setDataModelDetails(entityDetails) only when
entityDetails is non-empty; an empty input leaves the stored state alone. -/
def dataModelStep (stored entityDetails : DashboardDataModel) : DashboardDataModel :=
  if entityDetails.isEmptyObj then stored else entityDetails

/-- The skeleton condition: loading = isLoading || isEmpty(dataModelDetails). -/
def summarySkeleton (isLoading : Bool) (stored : DashboardDataModel) : Bool :=
  isLoading || stored.isEmptyObj

/-! ## Association-list lemmas -/

section AssocLemmas

variable {κ ν : Type} [DecidableEq κ]

@[simp]
theorem getKey_nil (k : κ) : getKey ([] : List (κ × ν)) k = none := rfl

@[simp]
theorem getKey_cons (k₁ : κ) (v₁ : ν) (tl : List (κ × ν)) (k : κ) :
    getKey ((k₁, v₁) :: tl) k = if k₁ = k then some v₁ else getKey tl k := by
  by_cases h : k₁ = k <;> simp [getKey, List.find?, h]

@[simp]
theorem hasKey_nil (k : κ) : hasKey ([] : List (κ × ν)) k = false := rfl

@[simp]
theorem hasKey_cons (k₁ : κ) (v₁ : ν) (tl : List (κ × ν)) (k : κ) :
    hasKey ((k₁, v₁) :: tl) k = (decide (k₁ = k) || hasKey tl k) := by
  simp [hasKey, List.any_cons]

theorem hasKey_eq_false_iff (o : List (κ × ν)) (k : κ) :
    hasKey o k = false ↔ getKey o k = none := by
  induction o with
  | nil => simp
  | cons kv tl ih =>
    obtain ⟨k₁, v₁⟩ := kv
    by_cases h : k₁ = k <;> simp [h, ih]

theorem getKey_eq_none_of_key_not_mem (o : List (κ × ν)) (k : κ)
    (h : ∀ kv ∈ o, kv.1 ≠ k) : getKey o k = none := by
  induction o with
  | nil => simp
  | cons kv tl ih =>
    obtain ⟨k₁, v₁⟩ := kv
    have hk : k₁ ≠ k := h (k₁, v₁) (by simp)
    simp only [getKey_cons, if_neg hk]
    exact ih (fun kv hkv => h kv (List.mem_cons_of_mem _ hkv))

theorem setKey_of_key_not_mem (o : List (κ × ν)) (k : κ) (v : ν)
    (h : ∀ kv ∈ o, kv.1 ≠ k) : setKey o k v = o ++ [(k, v)] := by
  have : o.any (fun kv => decide (kv.1 = k)) = false := by
    simp only [List.any_eq_false, decide_eq_true_eq]
    exact fun kv hkv => h kv hkv
  simp [setKey, this]

theorem hasKey_eq_true_iff (o : List (κ × ν)) (k : κ) :
    hasKey o k = true ↔ ∃ v, getKey o k = some v := by
  induction o with
  | nil => simp
  | cons kv tl ih =>
    obtain ⟨k₁, v₁⟩ := kv
    by_cases h : k₁ = k <;> simp [h, ih]

theorem getKey_append (o o' : List (κ × ν)) (k : κ) :
    getKey (o ++ o') k =
      match getKey o k with
      | some v => some v
      | none => getKey o' k := by
  induction o with
  | nil => simp
  | cons kv tl ih =>
    obtain ⟨k₁, v₁⟩ := kv
    by_cases h : k₁ = k <;> simp [h, ih]

theorem getKey_map_update (o : List (κ × ν)) (k k' : κ) (v : ν) :
    getKey (o.map (fun kv => if kv.1 = k then (k, v) else kv)) k' =
      if k' = k then (getKey o k).map (fun _ => v) else getKey o k' := by
  induction o with
  | nil => by_cases h : k' = k <;> simp [h]
  | cons kv tl ih =>
    obtain ⟨k₁, v₁⟩ := kv
    by_cases hk₁ : k₁ = k
    · subst hk₁
      by_cases hk' : k' = k₁
      · subst hk'
        simp [ih]
      · simp [Ne.symm hk', hk', ih]
    · by_cases hk₁' : k₁ = k'
      · subst hk₁'
        simp [hk₁, fun h : k₁ = k => hk₁ h, ih, (by exact fun h => hk₁ h.symm : ¬k = k₁)]
      · simp [hk₁, hk₁', ih]

theorem hasKey_map_update (o : List (κ × ν)) (k k' : κ) (v : ν) (h : k' ≠ k) :
    hasKey (o.map (fun kv => if kv.1 = k then (k, v) else kv)) k' = hasKey o k' := by
  induction o with
  | nil => simp
  | cons kv tl ih =>
    obtain ⟨k₁, v₁⟩ := kv
    by_cases hk₁ : k₁ = k
    · subst hk₁
      simp [fun hh : k₁ = k' => h hh.symm, ih]
    · simp [hk₁, ih]

theorem getKey_setKey_self (o : List (κ × ν)) (k : κ) (v : ν) :
    getKey (setKey o k v) k = some v := by
  unfold setKey
  by_cases ha : o.any (fun kv => decide (kv.1 = k)) = true
  · obtain ⟨w, hw⟩ := (hasKey_eq_true_iff o k).mp (by simpa [hasKey] using ha)
    simp [ha, getKey_map_update, hw]
  · have ha' : o.any (fun kv => decide (kv.1 = k)) = false :=
      Bool.eq_false_iff.mpr ha
    have hn : hasKey o k = false := by simpa [hasKey] using ha'
    have : getKey o k = none := (hasKey_eq_false_iff o k).mp hn
    simp [ha', getKey_append, this]

theorem getKey_setKey_ne (o : List (κ × ν)) (k k' : κ) (v : ν) (h : k' ≠ k) :
    getKey (setKey o k v) k' = getKey o k' := by
  unfold setKey
  by_cases ha : o.any (fun kv => decide (kv.1 = k)) = true
  · simp [ha, getKey_map_update, h]
  · have ha' : o.any (fun kv => decide (kv.1 = k)) = false :=
      Bool.eq_false_iff.mpr ha
    rw [if_neg (by simp [ha'])]
    rw [getKey_append]
    cases hg : getKey o k' with
    | some w => simp
    | none => simp [Ne.symm h]

theorem hasKey_setKey_ne (o : List (κ × ν)) (k k' : κ) (v : ν) (h : k' ≠ k) :
    hasKey (setKey o k v) k' = hasKey o k' := by
  unfold setKey
  by_cases ha : o.any (fun kv => decide (kv.1 = k)) = true
  · simp [ha, hasKey_map_update, h]
  · have ha' : o.any (fun kv => decide (kv.1 = k)) = false :=
      Bool.eq_false_iff.mpr ha
    rw [if_neg (by simp [ha'])]
    simp only [hasKey, List.any_append, List.any_cons, List.any_nil, Bool.or_false]
    simp [Ne.symm h]

theorem hasKey_eq_false_iff_keys (o : List (κ × ν)) (k : κ) :
    hasKey o k = false ↔ ∀ kv ∈ o, kv.1 ≠ k := by
  simp [hasKey, List.any_eq_false]

theorem getKey_eq_some_mem (o : List (κ × ν)) (k : κ) (v : ν)
    (h : getKey o k = some v) : (k, v) ∈ o := by
  induction o with
  | nil => simp at h
  | cons kv tl ih =>
    obtain ⟨k₁, v₁⟩ := kv
    by_cases hk : k₁ = k
    · subst hk
      have hv : v₁ = v := by simpa using h
      subst hv
      simp
    · simp only [getKey_cons, if_neg hk] at h
      exact List.mem_cons_of_mem _ (ih h)

@[simp]
theorem spreadInto_nil (b : List (κ × ν)) : spreadInto b [] = b := rfl

@[simp]
theorem spreadInto_cons (b : List (κ × ν)) (kv : κ × ν) (l : List (κ × ν)) :
    spreadInto b (kv :: l) = spreadInto (setKey b kv.1 kv.2) l := rfl

theorem getKey_spreadInto_of_ne (l : List (κ × ν)) (b : List (κ × ν)) (k : κ)
    (h : ∀ kv ∈ l, kv.1 ≠ k) : getKey (spreadInto b l) k = getKey b k := by
  induction l generalizing b with
  | nil => rfl
  | cons kv tl ih =>
    rw [spreadInto_cons, ih _ (fun kv' hkv' => h kv' (List.mem_cons_of_mem _ hkv')),
      getKey_setKey_ne _ _ _ _ (Ne.symm (h kv (by simp)))]

theorem hasKey_spreadInto_of_ne (l : List (κ × ν)) (b : List (κ × ν)) (k : κ)
    (h : ∀ kv ∈ l, kv.1 ≠ k) : hasKey (spreadInto b l) k = hasKey b k := by
  induction l generalizing b with
  | nil => rfl
  | cons kv tl ih =>
    rw [spreadInto_cons, ih _ (fun kv' hkv' => h kv' (List.mem_cons_of_mem _ hkv')),
      hasKey_setKey_ne _ _ _ _ (Ne.symm (h kv (by simp)))]

theorem getKey_spreadInto_of_mem (l : List (κ × ν)) (b : List (κ × ν)) (k : κ) (v : ν)
    (hn : (l.map Prod.fst).Nodup) (hm : (k, v) ∈ l) :
    getKey (spreadInto b l) k = some v := by
  induction l generalizing b with
  | nil => simp at hm
  | cons kv tl ih =>
    rcases List.mem_cons.mp hm with heq | htl
    · subst heq
      rw [spreadInto_cons]
      have hfresh : ∀ kv' ∈ tl, kv'.1 ≠ k := by
        intro kv' hkv' heq
        simp only [List.map_cons, List.nodup_cons] at hn
        exact hn.1 (heq ▸ List.mem_map_of_mem Prod.fst hkv')
      rw [getKey_spreadInto_of_ne _ _ _ hfresh, getKey_setKey_self]
    · rw [spreadInto_cons]
      exact ih _ (by simpa using (List.nodup_cons.mp (by simpa using hn)).2) htl

theorem key_mem_setKey (b : List (κ × ν)) (k : κ) (v : ν) (kv : κ × ν)
    (h : kv ∈ setKey b k v) : kv.1 ∈ b.map Prod.fst ∨ kv.1 = k := by
  unfold setKey at h
  by_cases ha : b.any (fun kv => decide (kv.1 = k)) = true
  · rw [if_pos (by simpa using ha)] at h
    obtain ⟨kv₀, hkv₀, heq⟩ := List.mem_map.mp h
    by_cases hk : kv₀.1 = k
    · right
      rw [if_pos hk] at heq
      subst heq
      rfl
    · left
      rw [if_neg hk] at heq
      subst heq
      exact List.mem_map_of_mem Prod.fst hkv₀
  · rw [if_neg (by simpa using ha)] at h
    rcases List.mem_append.mp h with h1 | h2
    · exact Or.inl (List.mem_map_of_mem Prod.fst h1)
    · right
      simp only [List.mem_singleton] at h2
      subst h2
      rfl

theorem key_mem_of_mem_spreadInto (l b : List (κ × ν)) (kv : κ × ν)
    (h : kv ∈ spreadInto b l) : kv.1 ∈ b.map Prod.fst ∨ kv.1 ∈ l.map Prod.fst := by
  induction l generalizing b with
  | nil => exact Or.inl (List.mem_map_of_mem Prod.fst h)
  | cons kv₁ tl ih =>
    rw [spreadInto_cons] at h
    rcases ih _ h with h1 | h2
    · obtain ⟨kv₀, hkv₀, heq⟩ := List.mem_map.mp h1
      rcases key_mem_setKey _ _ _ _ hkv₀ with hb | hk
      · left
        rw [← heq]
        exact hb
      · right
        rw [List.map_cons, ← heq, hk]
        exact List.mem_cons_self _ _
    · right
      rw [List.map_cons]
      exact List.mem_cons_of_mem _ h2

theorem getKey_filter_of_nodup (l : List (κ × ν)) (k : κ) (v : ν)
    (p : κ × ν → Bool) (hn : (l.map Prod.fst).Nodup) (hm : (k, v) ∈ l) :
    getKey (l.filter p) k = if p (k, v) = true then some v else none := by
  induction l with
  | nil => simp at hm
  | cons kv tl ih =>
    obtain ⟨k₁, v₁⟩ := kv
    simp only [List.map_cons, List.nodup_cons] at hn
    rcases List.mem_cons.mp hm with heq | htl
    · rw [Prod.mk.injEq] at heq
      obtain ⟨hk, hv⟩ := heq
      subst hk
      subst hv
      by_cases hp : p (k, v) = true
      · simp [List.filter_cons, hp]
      · have hnone : getKey (tl.filter p) k = none := by
          apply getKey_eq_none_of_key_not_mem
          intro kv' hkv' heq'
          exact hn.1 (heq' ▸ List.mem_map_of_mem Prod.fst (List.mem_of_mem_filter hkv'))
        simp [List.filter_cons, hp, hnone]
    · have hk₁ : k₁ ≠ k := by
        intro heq'
        exact hn.1 (heq' ▸ List.mem_map_of_mem Prod.fst htl)
      by_cases hp : p (k₁, v₁) = true
      · simp only [List.filter_cons, hp, if_pos, getKey_cons, if_neg hk₁]
        exact ih hn.2 htl
      · simp only [List.filter_cons, hp]
        simpa using ih hn.2 htl

end AssocLemmas

/-! ## Key lemmas for chart points -/

/-- The four metric keys written after the value spread. -/
def reservedKeys : List String :=
  ["passedRows", "failedRows", "passedRowsPercentage", "failedRowsPercentage"]

theorem metricObj_keys (r : TestCaseResult) :
    (metricObj r).map Prod.fst = reservedKeys := by
  cases hp : r.passedRowsPercentage <;> cases hf : r.failedRowsPercentage <;>
    simp [metricObj, reservedKeys]

theorem omitUndefVals_key_mem (r : TestCaseResult) (kv : String × JSValue)
    (h : kv ∈ omitUndefVals (metricObj r)) : kv.1 ∈ reservedKeys := by
  rw [show reservedKeys = (metricObj r).map Prod.fst from (metricObj_keys r).symm]
  exact List.mem_map_of_mem Prod.fst (List.mem_of_mem_filter h)

theorem valuesObj_key_ne (r : TestCaseResult) (k : String)
    (h : ∀ v ∈ r.testResultValue.getD [], v.name.getD "value" ≠ k) :
    ∀ kv ∈ valuesObj r, kv.1 ≠ k := by
  intro kv hkv
  rcases key_mem_of_mem_spreadInto _ _ _ hkv with h0 | h1
  · simp at h0
  · simp only [List.map_map] at h1
    obtain ⟨curr, hcurr, heq⟩ := List.mem_map.mp h1
    rw [show kv.1 = curr.name.getD "value" from heq.symm]
    exact h curr hcurr

/-- The chart point's name property is the result's timestamp, provided no
test-result value is named after the reserved key string. -/
theorem getKey_mkChartPoint_name (eT : List Thread) (r : TestCaseResult)
    (h : ∀ v ∈ r.testResultValue.getD [], v.name.getD "value" ≠ "name") :
    getKey (mkChartPoint eT r) "name" = some (jsOfOptInt r.timestamp) := by
  unfold mkChartPoint
  rw [getKey_setKey_ne _ _ _ _ (by decide), getKey_setKey_ne _ _ _ _ (by decide)]
  rw [getKey_spreadInto_of_ne _ _ _
    (fun kv hkv hne => by
      have := omitUndefVals_key_mem r kv hkv
      rw [hne] at this
      simp [reservedKeys] at this)]
  rw [getKey_spreadInto_of_ne _ _ _ (valuesObj_key_ne r "name" h)]
  simp

/-- Reading a reserved metric key off a chart point reduces to reading it off
the omitBy-filtered metric object, provided no test-result value reuses the
key. -/
theorem getKey_mkChartPoint_metric (eT : List Thread) (r : TestCaseResult)
    (k : String) (hk : k ∈ reservedKeys)
    (h : ∀ v ∈ r.testResultValue.getD [], v.name.getD "value" ≠ k) :
    getKey (mkChartPoint eT r) k = getKey (omitUndefVals (metricObj r)) k := by
  have hk' : k = "passedRows" ∨ k = "failedRows" ∨ k = "passedRowsPercentage" ∨
      k = "failedRowsPercentage" := by simpa [reservedKeys] using hk
  unfold mkChartPoint
  rw [getKey_setKey_ne _ _ _ _ (by rcases hk' with rfl | rfl | rfl | rfl <;> decide),
    getKey_setKey_ne _ _ _ _ (by rcases hk' with rfl | rfl | rfl | rfl <;> decide)]
  by_cases hmem : hasKey (omitUndefVals (metricObj r)) k = true
  · obtain ⟨v, hv⟩ := (hasKey_eq_true_iff _ _).mp hmem
    rw [hv]
    have hnodup : ((omitUndefVals (metricObj r)).map Prod.fst).Nodup := by
      have hsub : List.Sublist ((omitUndefVals (metricObj r)).map Prod.fst)
          ((metricObj r).map Prod.fst) := (List.filter_sublist _).map _
      exact (by rw [metricObj_keys]; decide : ((metricObj r).map Prod.fst).Nodup).sublist hsub
    exact getKey_spreadInto_of_mem _ _ _ _ hnodup (getKey_eq_some_mem _ _ _ hv)
  · have hfalse : hasKey (omitUndefVals (metricObj r)) k = false := Bool.eq_false_iff.mpr hmem
    rw [(hasKey_eq_false_iff _ _).mp hfalse]
    rw [getKey_spreadInto_of_ne _ _ _ ((hasKey_eq_false_iff_keys _ _).mp hfalse)]
    rw [getKey_spreadInto_of_ne _ _ _ (valuesObj_key_ne r k h)]
    apply getKey_eq_none_of_key_not_mem
    intro kv hkv
    simp only [List.mem_cons, List.mem_singleton, List.not_mem_nil, or_false] at hkv
    rcases hkv with rfl | rfl <;> rcases hk' with rfl | rfl | rfl | rfl <;> simp

/-- Reading a reserved metric key off a chart point yields the metric value
exactly when it is not undefined, and nothing (key absent) otherwise. -/
theorem getKey_mkChartPoint_metric_val (eT : List Thread) (r : TestCaseResult)
    (k : String) (v : JSValue) (hk : k ∈ reservedKeys)
    (h : ∀ w ∈ r.testResultValue.getD [], w.name.getD "value" ≠ k)
    (hm : (k, v) ∈ metricObj r) :
    getKey (mkChartPoint eT r) k = if v ≠ JSValue.undefVal then some v else none := by
  rw [getKey_mkChartPoint_metric eT r k hk h]
  unfold omitUndefVals
  rw [getKey_filter_of_nodup _ _ v _ (by rw [metricObj_keys]; decide) hm]
  by_cases hv : v = JSValue.undefVal <;> simp [hv]

/-- The numeric x-value of a chart point (its name property), 0 when it is
not a number. -/
def pointNameQ (p : List (String × JSValue)) : ℚ :=
  match getKey p "name" with
  | some (.num q) => q
  | _ => 0

/-! ## y-record lemmas for the reference-region renderer -/

/-- Specification of the y-record built by the reduce: entry n + 1 carries
the parsed value of parameter n. -/
def ySpec : List TestCaseParameterValue → ℕ → List (ℕ × Option ℤ)
  | [], _ => []
  | c :: tl, i => (i + 1, parseIntJS (c.value.getD "")) :: ySpec tl (i + 1)

theorem refYFold_eq_append (ps : List TestCaseParameterValue) :
    ∀ (i : ℕ) (acc : List (ℕ × Option ℤ)), (∀ kv ∈ acc, kv.1 ≤ i) →
      refYFold ps i acc = acc ++ ySpec ps i := by
  induction ps with
  | nil =>
    intro i acc hacc
    simp [refYFold, ySpec]
  | cons c tl ih =>
    intro i acc hacc
    rw [show refYFold (c :: tl) i acc =
      refYFold tl (i + 1) (setKey acc (i + 1) (parseIntJS (c.value.getD ""))) from rfl]
    rw [setKey_of_key_not_mem _ _ _
      (fun kv hkv hh => by have := hacc kv hkv; omega)]
    rw [ih (i + 1) _ (by
      intro kv hkv
      rcases List.mem_append.mp hkv with hin | hin
      · exact Nat.le_succ_of_le (hacc kv hin)
      · simp only [List.mem_singleton] at hin
        rw [hin])]
    rw [List.append_assoc]
    rfl

theorem refYValues_eq_ySpec (ps : List TestCaseParameterValue) :
    refYValues ps = ySpec ps 0 := by
  rw [refYValues, refYFold_eq_append ps 0 [] (by simp), List.nil_append]

/-! ## Claim C1 -/

/-- Claim C1: chartData.data has exactly one entry per fetched result, and,
when the fetched results arrive newest-first (strictly descending
timestamps, all timestamps present, and no test-result value reusing the
x-key string), the single reversal leaves the chart points in strictly
ascending chronological order of their x-values. -/
theorem chartData_one_entry_per_result_ascending
    (eT : List Thread) (results : List TestCaseResult) :
    (chartDataData eT results).length = results.length ∧
    ((∀ r ∈ results, r.timestamp.isSome = true) →
      ((results.map (fun r => r.timestamp.getD 0)).Pairwise (fun a b => b < a)) →
      (∀ r ∈ results, ∀ v ∈ r.testResultValue.getD [], v.name.getD "value" ≠ "name") →
      ((chartDataData eT results).map pointNameQ).Pairwise (fun a b => a < b)) := by
  constructor
  · simp [chartDataData]
  · intro h1 h2 h3
    have key : ∀ r ∈ results,
        pointNameQ (mkChartPoint eT r) = ((r.timestamp.getD 0 : ℤ) : ℚ) := by
      intro r hr
      obtain ⟨t, ht⟩ := Option.isSome_iff_exists.mp (h1 r hr)
      unfold pointNameQ
      rw [getKey_mkChartPoint_name eT r (h3 r hr), ht]
      simp [jsOfOptInt, ht]
    unfold chartDataData
    rw [List.map_reverse, List.pairwise_reverse, List.map_map]
    rw [List.pairwise_map] at h2 ⊢
    refine List.Pairwise.imp_of_mem ?_ h2
    intro a b ha hb hab
    simp only [Function.comp]
    rw [key b hb, key a ha]
    exact_mod_cast hab

def c1ResultA : TestCaseResult :=
  ⟨some 200, some .Success, none, none, none, none, none, none⟩

def c1ResultB : TestCaseResult :=
  ⟨some 100, some .Failed, none, none, none, none, none, none⟩

theorem chartData_one_entry_per_result_ascending_wit :
    (chartDataData [] [c1ResultA, c1ResultB]).length = [c1ResultA, c1ResultB].length ∧
    ((chartDataData [] [c1ResultA, c1ResultB]).map pointNameQ).Pairwise
      (fun a b => a < b) :=
  ⟨(chartData_one_entry_per_result_ascending [] [c1ResultA, c1ResultB]).1,
   (chartData_one_entry_per_result_ascending [] [c1ResultA, c1ResultB]).2
     (by decide) (by decide) (by decide)⟩

/-! ## Claim C2 -/

def c2TestCase0 : TestCase := ⟨some "tc", none, none, none⟩

/-- Claim C2 counterexample: with zero threshold parameters the renderer
does not yield the absence of a marker: it yields a ReferenceArea element
(with an empty y-record). -/
theorem referenceArea_zero_params_cex :
    c2TestCase0.parameterValues.getD [] = [] ∧
    refMarkers c2TestCase0 = [RefMarker.area []] ∧
    refMarkers c2TestCase0 ≠ [] := by
  refine ⟨rfl, rfl, by decide⟩

/-- Claim C2 (amended): exactly one parameter yields a single reference
line labelled by that parameter's name; two or more parameters yield a
reference area whose y1 and y2 entries carry the parseInt-parsed values of
the first two parameters in input order; zero parameters yield a reference
area with an empty y-record rather than no marker at all. -/
theorem referenceArea_marker_cases (td : TestCase) :
    (td.parameterValues.getD [] = [] → refMarkers td = [RefMarker.area []]) ∧
    (∀ p0, td.parameterValues.getD [] = [p0] →
      refMarkers td = [RefMarker.line p0.name]) ∧
    (∀ p0 p1 tl, td.parameterValues.getD [] = p0 :: p1 :: tl →
      refMarkers td = [RefMarker.area (refYValues (p0 :: p1 :: tl))] ∧
      getKey (refYValues (p0 :: p1 :: tl)) 1 = some (parseIntJS (p0.value.getD "")) ∧
      getKey (refYValues (p0 :: p1 :: tl)) 2 = some (parseIntJS (p1.value.getD ""))) := by
  refine ⟨?_, ?_, ?_⟩
  · intro h
    simp [refMarkers, referenceArea, h, refYValues, refYFold]
  · intro p0 h
    simp [refMarkers, referenceArea, h]
  · intro p0 p1 tl h
    refine ⟨by simp [refMarkers, referenceArea, h], ?_, ?_⟩
    · rw [refYValues_eq_ySpec]
      simp [ySpec]
    · rw [refYValues_eq_ySpec]
      simp [ySpec]

def c2ParamA : TestCaseParameterValue := ⟨some "minVal", some "10"⟩

def c2ParamB : TestCaseParameterValue := ⟨some "maxVal", some "20"⟩

def c2TestCase1 : TestCase := ⟨some "tc", none, some [c2ParamA], none⟩

def c2TestCase2 : TestCase := ⟨some "tc", none, some [c2ParamA, c2ParamB], none⟩

theorem referenceArea_marker_cases_wit :
    refMarkers c2TestCase1 = [RefMarker.line (some "minVal")] ∧
    getKey (refYValues [c2ParamA, c2ParamB]) 1 = some (parseIntJS "10") ∧
    getKey (refYValues [c2ParamA, c2ParamB]) 2 = some (parseIntJS "20") :=
  ⟨(referenceArea_marker_cases c2TestCase1).2.1 c2ParamA rfl,
   ((referenceArea_marker_cases c2TestCase2).2.2 c2ParamA c2ParamB [] rfl).2.1,
   ((referenceArea_marker_cases c2TestCase2).2.2 c2ParamA c2ParamB [] rfl).2.2⟩

/-! ## Claim C3 -/

def c3Thread : Thread := ⟨some "thread-1", some ⟨some "res-1", some .Open, none⟩⟩

def c3Result : TestCaseResult :=
  ⟨some 100, some .Success, none, none, none, none, none, some "other"⟩

/-- Claim C3 counterexample: with the graph loaded and one fetched result
whose incident id matches no thread, the unmatched thread does get x1 =
undefined, but the rendered chart still emits an overlay element for it
(the map over incidentData draws one ReferenceArea per thread
unconditionally), contradicting that no overlay is drawn. -/
theorem incident_unmatched_overlay_cex :
    (chartDataData [c3Thread] [c3Result]).length = 1 ∧
    (∀ p ∈ chartDataData [c3Thread] [c3Result],
      incidentMatch c3Thread p = false) ∧
    incidentData [c3Thread] [c3Result] = [⟨JSValue.undefVal, none, c3Thread⟩] ∧
    graphOverlays false [c3Thread] [c3Result] =
      [⟨JSValue.undefVal, none, some "thread-1"⟩] ∧
    graphOverlays false [c3Thread] [c3Result] ≠ [] := by
  refine ⟨rfl, by decide, by decide, by decide, by decide⟩

/-- Claim C3 (amended): whenever the chart is actually rendered (the graph
is not loading and at least one result was fetched), a thread whose
resolution-status id matches no chart point has overlay start x1 =
undefined, yet an overlay element for that thread is still emitted with
undefined start — the code does not exclude it from rendering. -/
theorem incident_unmatched_thread_overlay (eT : List Thread)
    (results : List TestCaseResult) (t : Thread) (ht : t ∈ eT)
    (hres : results ≠ [])
    (hnm : ∀ p ∈ chartDataData eT results, incidentMatch t p = false) :
    (mkIncidentDatum (chartDataData eT results) t).x1 = JSValue.undefVal ∧
    Overlay.mk JSValue.undefVal (mkIncidentDatum (chartDataData eT results) t).x2 t.id ∈
      graphOverlays false eT results := by
  have hfilter : (chartDataData eT results).filter (incidentMatch t) = [] := by
    rw [List.filter_eq_nil_iff]
    intro p hp
    simp [hnm p hp]
  have hx1 : (mkIncidentDatum (chartDataData eT results) t).x1 = JSValue.undefVal := by
    simp [mkIncidentDatum, hfilter]
  refine ⟨hx1, ?_⟩
  have hlen : ¬results.length = 0 := fun h0 => hres (List.length_eq_zero.mp h0)
  rw [graphOverlays, if_neg (by simp), if_neg hlen]
  have hmem : mkIncidentDatum (chartDataData eT results) t ∈ incidentData eT results :=
    List.mem_map_of_mem _ ht
  rw [show Overlay.mk JSValue.undefVal (mkIncidentDatum (chartDataData eT results) t).x2 t.id =
      Overlay.mk (mkIncidentDatum (chartDataData eT results) t).x1
        (mkIncidentDatum (chartDataData eT results) t).x2
        ((mkIncidentDatum (chartDataData eT results) t).task.id) from by
      rw [hx1]
      simp [mkIncidentDatum]]
  exact List.mem_map_of_mem _ hmem

def c3wThread : Thread := ⟨some "w1", some ⟨some "res-9", some .Closed, some 500⟩⟩

def c3wResult : TestCaseResult :=
  ⟨some 100, some .Success, none, none, none, none, none, some "other"⟩

theorem incident_unmatched_thread_overlay_wit :
    (mkIncidentDatum (chartDataData [c3wThread] [c3wResult]) c3wThread).x1 =
      JSValue.undefVal ∧
    Overlay.mk JSValue.undefVal
      (mkIncidentDatum (chartDataData [c3wThread] [c3wResult]) c3wThread).x2
      c3wThread.id ∈ graphOverlays false [c3wThread] [c3wResult] :=
  incident_unmatched_thread_overlay [c3wThread] [c3wResult] c3wThread
    (by decide) (by decide) (by decide)

/-! ## Claim C4 -/

def c4TestCase : TestCase := ⟨some "t1", none, none, none⟩

def c4State : FetchState := ⟨[], true, true⟩

def c4Range : DateRangeObject := ⟨0, 100⟩

/-- Claim C4 counterexample: an entity whose identifier is missing but whose
object is non-empty does not short-circuit: the REST call is made, with the
empty-string identifier. -/
theorem fetch_missing_identifier_cex :
    c4TestCase.fullyQualifiedName = none ∧
    (fetchTestResults c4TestCase (Except.ok []) c4Range c4State).2.restCalls =
      [("", c4Range)] := by
  refine ⟨rfl, rfl⟩

/-- Claim C4 (amended): the short-circuit is keyed on the whole entity
object being empty (lodash isEmpty), not on the identifier: an empty entity
object makes no REST call and leaves the state untouched; any non-empty
entity object triggers exactly one REST call, with a missing identifier
defaulted to the empty string. -/
theorem fetch_guard_on_empty_entity (d : TestCase)
    (outcome : Except Unit (List TestCaseResult)) (range : DateRangeObject)
    (s : FetchState) :
    (d.isEmptyObj = true → fetchTestResults d outcome range s = (s, ⟨[], 0⟩)) ∧
    (d.isEmptyObj = false →
      (fetchTestResults d outcome range s).2.restCalls =
        [(d.fullyQualifiedName.getD "", range)]) := by
  constructor
  · intro h
    simp [fetchTestResults, h]
  · intro h
    cases outcome <;> simp [fetchTestResults, h]

def c4wEmpty : TestCase := ⟨none, none, none, none⟩

theorem fetch_guard_on_empty_entity_wit :
    fetchTestResults c4wEmpty (Except.ok []) ⟨0, 1⟩ ⟨[], true, true⟩ =
      (⟨[], true, true⟩, ⟨[], 0⟩) ∧
    (fetchTestResults c4TestCase (Except.error ()) c4Range c4State).2.restCalls =
      [("", c4Range)] :=
  ⟨(fetch_guard_on_empty_entity c4wEmpty (Except.ok []) ⟨0, 1⟩ ⟨[], true, true⟩).1 rfl,
   (fetch_guard_on_empty_entity c4TestCase (Except.error ()) c4Range c4State).2 rfl⟩

/-! ## Claim C5 -/

/-- Claim C5: for a non-short-circuited fetch, a failure is caught and
surfaced as one error toast while the stored results stay untouched; a
success replaces the results with the fetched ones and shows no toast; and
both loading flags end cleared in either case. -/
theorem fetch_failure_handling (d : TestCase) (range : DateRangeObject)
    (s : FetchState) (e : Unit) (rs : List TestCaseResult)
    (h : d.isEmptyObj = false) :
    (fetchTestResults d (Except.error e) range s).1.results = s.results ∧
    (fetchTestResults d (Except.error e) range s).2.errorToasts = 1 ∧
    (fetchTestResults d (Except.error e) range s).1.isLoading = false ∧
    (fetchTestResults d (Except.error e) range s).1.isGraphLoading = false ∧
    (fetchTestResults d (Except.ok rs) range s).1.results = rs ∧
    (fetchTestResults d (Except.ok rs) range s).2.errorToasts = 0 ∧
    (fetchTestResults d (Except.ok rs) range s).1.isLoading = false ∧
    (fetchTestResults d (Except.ok rs) range s).1.isGraphLoading = false := by
  simp [fetchTestResults, h]

def c5TestCase : TestCase := ⟨some "t5", some "db.schema.table.t5", none, none⟩

def c5Result : TestCaseResult :=
  ⟨some 50, some .Aborted, none, none, none, none, none, none⟩

def c5State : FetchState := ⟨[c5Result], false, true⟩

theorem fetch_failure_handling_wit :
    (fetchTestResults c5TestCase (Except.error ()) ⟨5, 9⟩ c5State).1.results =
      c5State.results ∧
    (fetchTestResults c5TestCase (Except.error ()) ⟨5, 9⟩ c5State).2.errorToasts = 1 ∧
    (fetchTestResults c5TestCase (Except.error ()) ⟨5, 9⟩ c5State).1.isLoading = false ∧
    (fetchTestResults c5TestCase (Except.error ()) ⟨5, 9⟩ c5State).1.isGraphLoading
      = false ∧
    (fetchTestResults c5TestCase (Except.ok []) ⟨5, 9⟩ c5State).1.results = [] ∧
    (fetchTestResults c5TestCase (Except.ok []) ⟨5, 9⟩ c5State).2.errorToasts = 0 ∧
    (fetchTestResults c5TestCase (Except.ok []) ⟨5, 9⟩ c5State).1.isLoading = false ∧
    (fetchTestResults c5TestCase (Except.ok []) ⟨5, 9⟩ c5State).1.isGraphLoading
      = false :=
  fetch_failure_handling c5TestCase ⟨5, 9⟩ c5State () [] rfl

/-! ## Claim C6 -/

def c6Result : TestCaseResult :=
  ⟨some 100, some .Success, some [⟨some "passedRowsPercentage", some "5"⟩],
    none, none, none, none, none⟩

/-- Claim C6 counterexample: for a result whose passedRowsPercentage is
undefined but which has a test-result value named passedRowsPercentage, the
derived chart point does carry that key (with the value-spread number), so
the key is not omitted. -/
theorem chartPoint_metric_key_cex :
    c6Result.passedRowsPercentage = none ∧
    hasKey (mkChartPoint [] c6Result) "passedRowsPercentage" = true :=
  ⟨rfl, by decide⟩

/-- Claim C6 (amended): provided no test-result value reuses one of the four
reserved metric key strings, an undefined passedRows, failedRows,
passedRowsPercentage or failedRowsPercentage is omitted from the chart
point entirely (the key is absent, never a stored undefined); a defined
percentage is carried as its two-decimal rounded value with a percent-sign
suffix, and a defined row count as its number. -/
theorem chartPoint_metric_key_presence (eT : List Thread) (r : TestCaseResult)
    (h : ∀ v ∈ r.testResultValue.getD [], v.name.getD "value" ∉ reservedKeys) :
    (r.passedRowsPercentage = none →
      getKey (mkChartPoint eT r) "passedRowsPercentage" = none) ∧
    (∀ p, r.passedRowsPercentage = some p →
      getKey (mkChartPoint eT r) "passedRowsPercentage" =
        some (JSValue.str (pctString p))) ∧
    (r.failedRowsPercentage = none →
      getKey (mkChartPoint eT r) "failedRowsPercentage" = none) ∧
    (∀ p, r.failedRowsPercentage = some p →
      getKey (mkChartPoint eT r) "failedRowsPercentage" =
        some (JSValue.str (pctString p))) ∧
    (r.passedRows = none → getKey (mkChartPoint eT r) "passedRows" = none) ∧
    (∀ n, r.passedRows = some n →
      getKey (mkChartPoint eT r) "passedRows" = some (JSValue.num (n : ℚ))) ∧
    (r.failedRows = none → getKey (mkChartPoint eT r) "failedRows" = none) ∧
    (∀ n, r.failedRows = some n →
      getKey (mkChartPoint eT r) "failedRows" = some (JSValue.num (n : ℚ))) := by
  have h' : ∀ k ∈ reservedKeys, ∀ v ∈ r.testResultValue.getD [],
      v.name.getD "value" ≠ k :=
    fun k hk v hv heq => h v hv (heq ▸ hk)
  refine ⟨?_, ?_, ?_, ?_, ?_, ?_, ?_, ?_⟩
  · intro hp
    rw [getKey_mkChartPoint_metric_val eT r _ JSValue.undefVal (by decide)
      (h' _ (by decide)) (by simp [metricObj, hp])]
    simp
  · intro p hp
    rw [getKey_mkChartPoint_metric_val eT r _ (JSValue.str (pctString p)) (by decide)
      (h' _ (by decide)) (by simp [metricObj, hp])]
    simp
  · intro hp
    rw [getKey_mkChartPoint_metric_val eT r _ JSValue.undefVal (by decide)
      (h' _ (by decide)) (by simp [metricObj, hp])]
    simp
  · intro p hp
    rw [getKey_mkChartPoint_metric_val eT r _ (JSValue.str (pctString p)) (by decide)
      (h' _ (by decide)) (by simp [metricObj, hp])]
    simp
  · intro hp
    rw [getKey_mkChartPoint_metric_val eT r _ JSValue.undefVal (by decide)
      (h' _ (by decide)) (by simp [metricObj, hp, jsOfOptInt])]
    simp
  · intro n hp
    rw [getKey_mkChartPoint_metric_val eT r _ (JSValue.num (n : ℚ)) (by decide)
      (h' _ (by decide)) (by simp [metricObj, hp, jsOfOptInt])]
    simp
  · intro hp
    rw [getKey_mkChartPoint_metric_val eT r _ JSValue.undefVal (by decide)
      (h' _ (by decide)) (by simp [metricObj, hp, jsOfOptInt])]
    simp
  · intro n hp
    rw [getKey_mkChartPoint_metric_val eT r _ (JSValue.num (n : ℚ)) (by decide)
      (h' _ (by decide)) (by simp [metricObj, hp, jsOfOptInt])]
    simp

def c6wResult : TestCaseResult :=
  ⟨some 300, some .Success, some [⟨some "rowCount", some "42"⟩],
    some 80, none, some (1/2), none, none⟩

theorem chartPoint_metric_key_presence_wit :
    getKey (mkChartPoint [] c6wResult) "passedRowsPercentage" =
      some (JSValue.str (pctString (1/2))) ∧
    getKey (mkChartPoint [] c6wResult) "failedRowsPercentage" = none ∧
    getKey (mkChartPoint [] c6wResult) "passedRows" = some (JSValue.num (80 : ℚ)) ∧
    getKey (mkChartPoint [] c6wResult) "failedRows" = none :=
  ⟨(chartPoint_metric_key_presence [] c6wResult (by decide)).2.1 (1/2) rfl,
   (chartPoint_metric_key_presence [] c6wResult (by decide)).2.2.1 rfl,
   (chartPoint_metric_key_presence [] c6wResult (by decide)).2.2.2.2.2.1 80 rfl,
   (chartPoint_metric_key_presence [] c6wResult (by decide)).2.2.2.2.2.2.1 rfl⟩

/-! ## Claim C7 -/

/-- Claim C7: each incident thread contributes an incident datum whose end
bound x2 equals the thread's closedAt exactly when its task status is
Closed, and is undefined (open-ended) for any other task status. -/
theorem incident_x2_closed_at (eT : List Thread) (results : List TestCaseResult)
    (t : Thread) (ht : t ∈ eT) :
    ∃ d ∈ incidentData eT results, d.task = t ∧
      (t.task.bind (fun td => td.status) = some ThreadTaskStatus.Closed →
        d.x2 = t.task.bind (fun td => td.closedAt)) ∧
      (t.task.bind (fun td => td.status) ≠ some ThreadTaskStatus.Closed →
        d.x2 = none) := by
  refine ⟨mkIncidentDatum (chartDataData eT results) t,
    List.mem_map_of_mem _ ht, rfl, ?_, ?_⟩
  · intro hcl
    simp [mkIncidentDatum, hcl]
  · intro hncl
    simp [mkIncidentDatum, hncl]

def c7Thread : Thread := ⟨some "t7", some ⟨some "r7", some .Closed, some 999⟩⟩

theorem incident_x2_closed_at_wit :
    ∃ d ∈ incidentData [c7Thread] [], d.task = c7Thread ∧
      (c7Thread.task.bind (fun td => td.status) = some ThreadTaskStatus.Closed →
        d.x2 = c7Thread.task.bind (fun td => td.closedAt)) ∧
      (c7Thread.task.bind (fun td => td.status) ≠ some ThreadTaskStatus.Closed →
        d.x2 = none) :=
  incident_x2_closed_at [c7Thread] [] c7Thread (by decide)

/-! ## Claim C8 -/

theorem seriesFrom_length (colors : List String) (i : ℕ)
    (tvs : List TestResultValue) : (seriesFrom colors i tvs).length = tvs.length := by
  induction tvs generalizing i with
  | nil => rfl
  | cons w tw ih => simp [seriesFrom, ih]

theorem seriesFrom_get (colors : List String) :
    ∀ (tvs : List TestResultValue) (j i : ℕ) (v : TestResultValue),
      tvs.get? i = some v →
      (seriesFrom colors j tvs).get? i = some (v.name.getD "", colors.get? (j + i)) := by
  intro tvs
  induction tvs with
  | nil =>
    intro j i v hv
    simp at hv
  | cons w tw ih =>
    intro j i v hv
    cases i with
    | zero =>
      simp only [List.get?] at hv
      obtain rfl := Option.some.inj hv
      simp [seriesFrom]
    | succ i =>
      simp only [List.get?] at hv
      have := ih (j + 1) i v hv
      simpa [seriesFrom, Nat.add_assoc, Nat.add_comm 1 i] using this

def c8Result : TestCaseResult :=
  ⟨some 100, some .Success, some [⟨some "a", some "1"⟩, ⟨some "a", some "2"⟩],
    none, none, none, none, none⟩

/-- Claim C8 counterexample: a first result carrying two equally-named
values yields two series entries — one per value entry, not one per
distinct result-value name. -/
theorem chartSeries_duplicate_name_cex :
    chartSeries ["c0", "c1"] [c8Result] = [("a", some "c0"), ("a", some "c1")] ∧
    (chartSeries ["c0", "c1"] [c8Result]).length = 2 ∧
    ((chartSeries ["c0", "c1"] [c8Result]).map Prod.fst).dedup.length = 1 :=
  ⟨rfl, rfl, by decide⟩

/-- Claim C8 (amended): the series list is derived from the first fetched
result only (later results never change it); it has one entry per element
of the first result's testResultValue list (duplicated names give
duplicated entries), each entry carrying the value's name (or the empty
string) as label and the palette color at its index (undefined past the
palette's end); an empty result list yields an empty series list. -/
theorem chartSeries_from_first_result (colors : List String)
    (results : List TestCaseResult) (r : TestCaseResult)
    (tl tl' : List TestCaseResult) :
    (chartSeries colors [] = []) ∧
    (chartSeries colors (r :: tl) = chartSeries colors (r :: tl')) ∧
    (results = r :: tl →
      (chartSeries colors results).length = (r.testResultValue.getD []).length) ∧
    (∀ tvs i v, r.testResultValue = some tvs → tvs.get? i = some v →
      (chartSeries colors (r :: tl)).get? i =
        some (v.name.getD "", colors.get? i)) := by
  refine ⟨rfl, rfl, ?_, ?_⟩
  · intro hres
    subst hres
    cases htv : r.testResultValue with
    | none => simp [chartSeries, htv]
    | some tvs => simp [chartSeries, htv, seriesFrom_length]
  · intro tvs i v htv hget
    have := seriesFrom_get colors tvs 0 i v hget
    simpa [chartSeries, htv] using this

def c8wResult : TestCaseResult :=
  ⟨some 100, some .Success, some [⟨some "rowCount", some "7"⟩, ⟨none, some "8"⟩],
    none, none, none, none, none⟩

theorem chartSeries_from_first_result_wit :
    (chartSeries ["c0"] [c8wResult]).length = 2 ∧
    (chartSeries ["c0"] [c8wResult]).get? 0 = some ("rowCount", some "c0") ∧
    (chartSeries ["c0"] [c8wResult]).get? 1 = some ("", none) :=
  ⟨(chartSeries_from_first_result ["c0"] [c8wResult] c8wResult [] []).2.2.1 rfl,
   (chartSeries_from_first_result ["c0"] [c8wResult] c8wResult [] []).2.2.2
     [⟨some "rowCount", some "7"⟩, ⟨none, some "8"⟩] 0 ⟨some "rowCount", some "7"⟩
     rfl rfl,
   (chartSeries_from_first_result ["c0"] [c8wResult] c8wResult [] []).2.2.2
     [⟨some "rowCount", some "7"⟩, ⟨none, some "8"⟩] 1 ⟨none, some "8"⟩ rfl rfl⟩

/-! ## Claim C9 -/

theorem parseFloatFull_fin_agrees (s : String) (q : ℚ)
    (h : parseFloatFull s = JSNum.fin q) : parseFloatJS s = some q := by
  simp only [parseFloatFull] at h
  split at h
  · split at h <;> simp at h
  · split at h
    · simp at h
    · rename_i q0 heq
      split at h
      · simp at h
      · split at h
        · simp at h
        · simp only [JSNum.fin.injEq] at h
          rw [heq, h]

/-- Claim C9 counterexample: the value string Infinity parses to positive
Infinity, lodash round keeps it (its decimal-shift path is guarded by
isFinite), and Infinity || 0 keeps it (truthy), so the stored metric is the
non-finite Infinity: the metric is not always a finite number. -/
theorem chartValue_infinity_cex :
    parseFloatFull "Infinity" = JSNum.posInf ∧
    chartValueFull (some "Infinity") = JSNum.posInf ∧
    (chartValueFull (some "Infinity")).isFiniteNum = false ∧
    chartValueFull (some "-Infinity") = JSNum.negInf := by
  refine ⟨by decide, by decide, by decide, by decide⟩

/-- Claim C9 (amended): the named metric stored for a test result value is
never NaN: a missing or non-numeric value string parses to NaN and the
|| 0 coercion stores 0, and a finite parse is stored as its two-decimal
round (agreeing with the finite chart-point value).  It is not always
finite, though: a value string parsing to an infinity (the Infinity
literal, or a numeral at or beyond double overflow) is truthy and is
stored as that infinity. -/
theorem chartValueFull_never_nan (v : Option String) :
    chartValueFull v ≠ JSNum.nan ∧
    (parseFloatFull (v.getD "") = JSNum.nan → chartValueFull v = JSNum.fin 0) ∧
    (∀ q, parseFloatFull (v.getD "") = JSNum.fin q →
      chartValueFull v = JSNum.fin (round2 q) ∧ chartValue v = round2 q) ∧
    (parseFloatFull (v.getD "") = JSNum.posInf → chartValueFull v = JSNum.posInf) ∧
    (parseFloatFull (v.getD "") = JSNum.negInf → chartValueFull v = JSNum.negInf) ∧
    (v = none → chartValueFull v = JSNum.fin 0) := by
  refine ⟨?_, ?_, ?_, ?_, ?_, ?_⟩
  · cases h : parseFloatFull (v.getD "") with
    | nan => simp [chartValueFull, roundFull, orZero, h]
    | posInf => simp [chartValueFull, roundFull, orZero, h]
    | negInf => simp [chartValueFull, roundFull, orZero, h]
    | fin q =>
      simp only [chartValueFull, roundFull, orZero, h]
      by_cases hz : round2 q = 0 <;> simp [hz]
  · intro h
    simp [chartValueFull, roundFull, orZero, h]
  · intro q h
    constructor
    · simp only [chartValueFull, h, roundFull, orZero]
      by_cases hz : round2 q = 0 <;> simp [hz]
    · have hjs := parseFloatFull_fin_agrees _ q h
      simp [chartValue, hjs]
  · intro h
    simp [chartValueFull, roundFull, orZero, h]
  · intro h
    simp [chartValueFull, roundFull, orZero, h]
  · intro h
    subst h
    rfl

theorem chartValueFull_never_nan_wit :
    chartValueFull (some "not-a-number") = JSNum.fin 0 ∧
    chartValueFull (some "Infinity") = JSNum.posInf ∧
    chartValueFull none = JSNum.fin 0 :=
  ⟨(chartValueFull_never_nan (some "not-a-number")).2.1 (by decide),
   (chartValueFull_never_nan (some "Infinity")).2.2.2.1 (by decide),
   (chartValueFull_never_nan none).2.2.2.2.2 rfl⟩

/-! ## Claim C10 -/

/-- Claim C10: the stored dataModelDetails are only ever overwritten by a
non-empty entityDetails input: an empty input is skipped and the previous
details retained; over any input sequence the stored details end non-empty
exactly when the initial value or some input was non-empty; and the
skeleton shows exactly while loading or while the stored details are still
empty. -/
theorem dataModel_retention_and_skeleton (s e : DashboardDataModel) (l : Bool)
    (es : List DashboardDataModel) :
    (e.isEmptyObj = true → dataModelStep s e = s) ∧
    (dataModelStep s e ≠ s → e.isEmptyObj = false ∧ dataModelStep s e = e) ∧
    ((es.foldl dataModelStep s).isEmptyObj = false ↔
      (s.isEmptyObj = false ∨ ∃ e2 ∈ es, e2.isEmptyObj = false)) ∧
    (summarySkeleton l s = true ↔ (l = true ∨ s.isEmptyObj = true)) := by
  refine ⟨?_, ?_, ?_, ?_⟩
  · intro h
    simp [dataModelStep, h]
  · intro hne
    by_cases h : e.isEmptyObj = true
    · exact absurd (by simp [dataModelStep, h]) hne
    · have h' : e.isEmptyObj = false := Bool.eq_false_iff.mpr h
      exact ⟨h', by simp [dataModelStep, h']⟩
  · induction es generalizing s with
    | nil => simp
    | cons e2 tle ih =>
      rw [List.foldl_cons, ih]
      by_cases h : e2.isEmptyObj = true
      · simp [dataModelStep, h]
      · have h' : e2.isEmptyObj = false := Bool.eq_false_iff.mpr h
        simp [dataModelStep, h', h]
  · simp [summarySkeleton]

def c10Stored : DashboardDataModel := ⟨some "model", none, none⟩

def c10Empty : DashboardDataModel := ⟨none, none, none⟩

theorem dataModel_retention_and_skeleton_wit :
    dataModelStep c10Stored c10Empty = c10Stored ∧
    (c10Stored.isEmptyObj = false ∧ dataModelStep c10Empty c10Stored = c10Stored) :=
  ⟨(dataModel_retention_and_skeleton c10Stored c10Empty false []).1 rfl,
   (dataModel_retention_and_skeleton c10Empty c10Stored false []).2.1 (by decide)⟩

end OMSpec
